import Mathlib

/-! Slider controller of `src/js/js.site.js`

A shallow embedding of `initSlider` (lines 16-144): the configuration read
from the container's `data-*` attributes, the closure variables `index`,
`timer`, `isPointerDown`, `startX`, `scrollStart`, the inner functions
`clamp`, `goTo`, `next`, `prev`, `start`, `stop`, `restart`,
`onPointerDown`, `onPointerMove`, `onPointerUp`, and the event wiring.

Numbers: page indices and page counts are integers (`Int`).  Pointer
coordinates, the drag threshold and the rendered offset are doubles: a finite
double is the rational it denotes, and every `-`, `*` and `/` on them rounds
to the nearest double, ties to even (`roundDouble`); the sign of zero is not
kept, and a result of magnitude `2 ^ 1024` or more stands for an infinity.
`NaN` and the infinities are modelled where the source can produce them from
its input (configuration parsing, `JSNumber`).
-/

namespace Slider

/-! ## Double arithmetic -/

/-- Nearest integer, a tie going to the even neighbour. -/
def roundHalfEven (x : ℚ) : Int :=
  if x - (Int.floor x : ℚ) < 1 / 2 then Int.floor x
  else if 1 / 2 < x - (Int.floor x : ℚ) then Int.floor x + 1
  else if Int.floor x % 2 = 0 then Int.floor x
  else Int.floor x + 1

/-- The exponent of the last place of the doubles around `q ≠ 0`: 52 below
the binary exponent of `q`, and `-1074` in the subnormal range. -/
def ulpExponent (q : ℚ) : Int :=
  max (Int.log 2 |q| - 52) (-1074)

/-- Round to the nearest IEEE 754 binary64 value, ties to even: the result of
every arithmetic operation on doubles. -/
def roundDouble (q : ℚ) : ℚ :=
  if q = 0 then 0
  else (roundHalfEven (q / 2 ^ ulpExponent q) : ℚ) * 2 ^ ulpExponent q

/-- The operator `-` on two doubles. -/
def jsSub (a b : ℚ) : ℚ := roundDouble (a - b)

/-- The operator `*` on two doubles. -/
def jsMul (a b : ℚ) : ℚ := roundDouble (a * b)

/-- The operator `/` on two doubles, the divisor not zero. -/
def jsDiv (a b : ℚ) : ℚ := roundDouble (a / b)

/-- The literal `0.12` of line 110: the double nearest to 12/100. -/
def pointTwelve : ℚ := roundDouble (12 / 100)

/-- Nearest double of a natural number, ties to even; exact below `2 ^ 53`. -/
def roundNat (v : Nat) : Nat :=
  if v < 2 ^ 53 then v
  else
    let p := Nat.log2 v - 52
    let f := v / 2 ^ p
    let r := v % 2 ^ p
    let n := if 2 * r < 2 ^ p then f else if 2 ^ p < 2 * r then f + 1
      else if f % 2 = 0 then f else f + 1
    n * 2 ^ p

/-! ## Configuration (lines 25-27, 36) -/

/-- A number as the configuration can hold it: `NaN`, an infinity, or an
integer. -/
inductive JSNumber where
  | nan
  | negInf
  | posInf
  | int (v : Int)
  deriving DecidableEq, Repr

/-- White space skipped by `parseInt` before the number: the ECMAScript
`WhiteSpace` and `LineTerminator` code points (TAB, LF, VT, FF, CR, SP, NBSP,
U+1680, U+2000 to U+200A, U+2028, U+2029, U+202F, U+205F, U+3000, U+FEFF). -/
def isStrWhiteSpace (c : Char) : Bool :=
  c.toNat = 9 || c.toNat = 10 || c.toNat = 11 || c.toNat = 12 || c.toNat = 13 ||
  c.toNat = 32 || c.toNat = 160 || c.toNat = 5760 ||
  (8192 ≤ c.toNat && c.toNat ≤ 8202) || c.toNat = 8232 || c.toNat = 8233 ||
  c.toNat = 8239 || c.toNat = 8287 || c.toNat = 12288 || c.toNat = 65279

/-- Decimal value of the longest run of digits at the head of `cs`, with the
number of digits read; `acc` is the value read so far. -/
def readDigits : List Char → Nat → Nat → Nat × Nat
  | [], acc, n => (acc, n)
  | c :: cs, acc, n =>
    if c.isDigit then readDigits cs (acc * 10 + (c.toNat - 48)) (n + 1) else (acc, n)

/-- The number `2 ^ 1024`, from which a rounded magnitude is an infinity. -/
def doubleLimit : Nat :=
  179769313486231590772930519078902473361797697894230657273430081157732675805500963132708477322407536021120113879871393357658789768814416622492847430639474124377767893424865485276302219601246094119453082952085005768838150682342462881473913110540827237163350510684586298239947245938479716304835356329624224137216

/-- The number value of the digits read, with the sign `neg`: `NaN` when no
digit was read, the nearest double otherwise, an infinity from `2 ^ 1024`. -/
def parseDigits (neg : Bool) (cs : List Char) : JSNumber :=
  match readDigits cs 0 0 with
  | (_, 0) => .nan
  | (v, _ + 1) =>
    if doubleLimit ≤ roundNat v then (if neg then .negInf else .posInf)
    else .int (if neg then -(roundNat v : Int) else (roundNat v : Int))

/-- The builtin `parseInt(s, 10)`: leading white space is skipped, an optional
sign is read, then the longest run of decimal digits. -/
def parseInt10 (s : String) : JSNumber :=
  match s.toList.dropWhile isStrWhiteSpace with
  | [] => .nan
  | c :: cs =>
    if c = '-' then parseDigits true cs
    else if c = '+' then parseDigits false cs
    else parseDigits false (c :: cs)

/-- The idiom `root.dataset.x || d` on a string attribute: an absent
(`undefined`) or empty attribute is falsy and yields the default. -/
def orDefault (attr : Option String) (d : String) : String :=
  match attr with
  | none => d
  | some s => if s = "" then d else s

/-- The builtin `Math.max(1, x)`, which is `NaN` when `x` is `NaN`. -/
def mathMax1 (x : JSNumber) : JSNumber :=
  match x with
  | .nan => .nan
  | .posInf => .posInf
  | .negInf => .int 1
  | .int v => .int (max 1 v)

/-- Line 25: `Math.max(1, parseInt(root.dataset.perView || '1', 10))`. -/
def perView (attr : Option String) : JSNumber :=
  mathMax1 (parseInt10 (orDefault attr "1"))

/-- Line 26: `parseInt(root.dataset.autoplay || '0', 10) || 0`; `NaN` and `0`
are falsy. -/
def autoplayMs (attr : Option String) : JSNumber :=
  match parseInt10 (orDefault attr "0") with
  | .nan => .int 0
  | .int v => if v = 0 then .int 0 else .int v
  | x => x

/-- Line 27: `String(root.dataset.loop || 'true') === 'true'`. -/
def loop (attr : Option String) : Bool :=
  decide (orDefault attr "true" = "true")

/-- Line 36 for an integer `perView` other than `0`:
`Math.max(1, Math.ceil(slides.length / perView))`.  The quotient is taken
exactly: below `2 ^ 53` slides the double quotient has the same ceiling. -/
def pages (slides : Nat) (pv : Int) : Int :=
  max 1 (Int.ceil ((slides : ℚ) / (pv : ℚ)))

/-- Line 36 on any `perView`: `NaN` goes through `/`, `Math.ceil` and
`Math.max`; a division by an infinity gives `0`, a division by `0` gives an
infinity, or `NaN` when there is no slide. -/
def pagesJS (slides : Nat) (pv : JSNumber) : JSNumber :=
  match pv with
  | .nan => .nan
  | .posInf => .int 1
  | .negInf => .int 1
  | .int p =>
    if p = 0 then (if slides = 0 then .nan else .posInf)
    else .int (pages slides p)

/-! ## Instance state -/

/-- The constants of one slider instance. -/
structure Config where
  perView : Int
  autoplayMs : Int
  loop : Bool
  pages : Int
  deriving DecidableEq, Repr

/-- The mutable closure variables of `initSlider`, the part of the DOM that
the handlers write, and the interval timers of the host that this instance
created. -/
structure State where
  /-- `index` -/
  index : Int
  /-- `timer`: `none` is `null`, `some id` an interval id -/
  timer : Option Nat
  isPointerDown : Bool
  startX : ℚ
  scrollStart : Int
  /-- the number in `track.style.transform = translateX(..%)` -/
  transform : ℚ
  /-- `track.style.transition` is `'none'` -/
  transitionNone : Bool
  /-- `root` carries the class `is-dragging` -/
  dragging : Bool
  /-- ids of intervals scheduled by `setInterval` and not yet cleared -/
  live : List Nat
  /-- number of intervals created so far; the next id is `created + 1` -/
  created : Nat
  deriving DecidableEq, Repr

/-- Lines 50-57. -/
def clamp (c : Config) (i : Int) : Int :=
  if c.loop then
    if i < 0 then c.pages - 1
    else if i ≥ c.pages then 0
    else i
  else max 0 (min (c.pages - 1) i)

/-- Line 81: `if(timer){ clearInterval(timer); timer=null; }`.  An id is truthy
when it is not `0`. -/
def stop (s : State) : State :=
  match s.timer with
  | some (id + 1) => { s with live := s.live.filter (fun j => j ≠ id + 1), timer := none }
  | _ => s

/-- Lines 76-80.  `setInterval` returns a fresh positive id. -/
def start (c : Config) (s : State) : State :=
  if c.autoplayMs = 0 then s
  else
    let s1 := stop s
    { s1 with live := (s1.created + 1) :: s1.live,
              timer := some (s1.created + 1),
              created := s1.created + 1 }

/-- Line 82. -/
def restart (c : Config) (s : State) : State :=
  start c (stop s)

/-- Lines 59-65.  The dots mirror `index` (`updateDots`, lines 67-70) and are
not stored separately. -/
def goTo (c : Config) (s : State) (i : Int) (user : Bool) : State :=
  let s1 := { s with index := clamp c i }
  let s2 := { s1 with transform := jsMul (-(jsDiv 100 (c.perView : ℚ))) (s1.index : ℚ) }
  if user then restart c s2 else s2

/-- Line 72. -/
def next (c : Config) (s : State) : State :=
  goTo c s (s.index + 1) false

/-- Line 73. -/
def prev (c : Config) (s : State) : State :=
  goTo c s (s.index - 1) false

/-- What the pointer handlers read from a `PointerEvent`, `MouseEvent` or
`TouchEvent`: `clientX` is `undefined` on a touch event, `touches` and
`changedTouches` are `undefined` on a pointer event.  `changedTouches` holds
the `clientX` of its first entry.  The coordinates are finite doubles. -/
structure PointerEv where
  clientX : Option ℚ
  touches : Option (List ℚ)
  changedTouches : Option ℚ
  deriving DecidableEq, Repr

/-- Lines 87 and 94: `e.clientX || (e.touches && e.touches[0]?.clientX) || 0`. -/
def moveX (e : PointerEv) : ℚ :=
  match e.clientX with
  | some x => if x ≠ 0 then x else
    match e.touches with
    | some (t :: _) => t
    | _ => 0
  | none =>
    match e.touches with
    | some (t :: _) => t
    | _ => 0

/-- Line 108: `e.changedTouches ? e.changedTouches[0].clientX : (e.clientX || 0)`. -/
def upX (e : PointerEv) : ℚ :=
  match e.changedTouches with
  | some t => t
  | none => e.clientX.getD 0

/-- Lines 85-91. -/
def onPointerDown (s : State) (e : PointerEv) : State :=
  stop { s with isPointerDown := true, startX := moveX e, scrollStart := s.index,
                dragging := true }

/-- Lines 92-102; `width` is `root.clientWidth` when the event is handled. -/
def onPointerMove (c : Config) (s : State) (e : PointerEv) (width : Nat) : State :=
  if !s.isPointerDown then s
  else
    let dx := jsSub (moveX e) s.startX
    let w : ℚ := if width = 0 then 1 else (width : ℚ)
    let deltaPages := jsDiv dx w
    let target := jsSub (s.scrollStart : ℚ) deltaPages
    { s with transitionNone := true,
             transform := jsMul (-(jsDiv 100 (c.perView : ℚ))) target }

/-- Lines 103-115; `width` is `root.clientWidth` when the event is handled. -/
def onPointerUp (c : Config) (s : State) (e : PointerEv) (width : Nat) : State :=
  if !s.isPointerDown then s
  else
    let s1 := { s with isPointerDown := false, dragging := false, transitionNone := false }
    let dx := jsSub (upX e) s1.startX
    let threshold : ℚ := jsMul (width : ℚ) pointTwelve
    let s2 :=
      if dx > threshold then prev c s1
      else if dx < -threshold then next c s1
      else goTo c s1 s1.index false
    start c s2

/-- The `key` of a `keydown` event, as far as the handler tells them apart. -/
inductive Key where
  | arrowLeft
  | arrowRight
  | other
  deriving DecidableEq, Repr

/-- Lines 122-125. -/
def onKeyDown (c : Config) (s : State) (k : Key) : State :=
  let s1 := if k = Key.arrowLeft then restart c (prev c s) else s
  if k = Key.arrowRight then restart c (next c s1) else s1

/-- The events an instance has listeners for (lines 44, 118-139) and the
callback of its interval.  `pointerDown`, `pointerMove` and `pointerUp` stand
for the pointer and the touch listeners, which share their handlers. -/
inductive Event where
  | dotClick (i : Nat)
  | prevClick
  | nextClick
  | keyDown (k : Key)
  | mouseEnter
  | mouseLeave
  | focusIn
  | focusOut
  | pointerDown (e : PointerEv)
  | pointerMove (e : PointerEv) (width : Nat)
  | pointerUp (e : PointerEv) (width : Nat)
  | tick (id : Nat)
  deriving DecidableEq, Repr

/-- One event handled to completion.  A dot exists only for `i < pages`
(lines 40-47); the callback of an interval runs only while it is live. -/
def step (c : Config) (s : State) : Event → State
  | .dotClick i => if (i : Int) < c.pages then goTo c s i true else s
  | .prevClick => goTo c s (s.index - 1) true
  | .nextClick => goTo c s (s.index + 1) true
  | .keyDown k => onKeyDown c s k
  | .mouseEnter => stop s
  | .mouseLeave => start c s
  | .focusIn => stop s
  | .focusOut => start c s
  | .pointerDown e => onPointerDown s e
  | .pointerMove e w => onPointerMove c s e w
  | .pointerUp e w => onPointerUp c s e w
  | .tick id => if id ∈ s.live then next c s else s

/-- Lines 29-33 and 142-143: the variables as declared, then `goTo(0)` and
`start()`. -/
def init (c : Config) : State :=
  start c (goTo c
    { index := 0, timer := none, isPointerDown := false, startX := 0, scrollStart := 0,
      transform := 0, transitionNone := false, dragging := false, live := [], created := 0 }
    0 false)

/-- The state after a sequence of events, handled in order. -/
def run (c : Config) (s : State) (es : List Event) : State :=
  es.foldl (step c) s

/-- What can happen to an instance: one of its events, or a direct call of
`start`, `stop` or `restart`. -/
inductive Action where
  | event (e : Event)
  | callStart
  | callStop
  | callRestart
  deriving DecidableEq, Repr

/-- One action carried out. -/
def act (c : Config) (s : State) : Action → State
  | .event e => step c s e
  | .callStart => start c s
  | .callStop => stop s
  | .callRestart => restart c s

/-- The state after a sequence of actions, carried out in order. -/
def runActions (c : Config) (s : State) (acts : List Action) : State :=
  acts.foldl (act c) s

/-- The container as `initSlider` reads it (lines 17-27). -/
structure Root where
  hasTrack : Bool
  slides : Nat
  dataPerView : Option String
  dataAutoplay : Option String
  dataLoop : Option String

/-- What `initSlider` leaves behind. -/
inductive InitResult where
  /-- line 23: early return, no listener and no timer -/
  | noInstance
  /-- `perView` is `NaN`, and with it `pages` (line 36) -/
  | nanInstance
  /-- `perView` or `autoplayMs` is an infinity (an attribute of more than 308
  digits) -/
  | infInstance
  /-- an instance with integer constants and its first state -/
  | ready (c : Config) (s : State)
  deriving DecidableEq, Repr

/-- Lines 16-36 and 142-143. -/
def initSlider (r : Root) : InitResult :=
  if !r.hasTrack || r.slides = 0 then .noInstance
  else
    match perView r.dataPerView, autoplayMs r.dataAutoplay with
    | .nan, _ => .nanInstance
    | .int pv, .int ms =>
      let c : Config :=
        { perView := pv, autoplayMs := ms, loop := loop r.dataLoop,
          pages := pages r.slides pv }
      .ready c (init c)
    | _, _ => .infInstance

/-- The timer discipline: every live interval is the one in `timer`, there is
at most one, and a stored id is positive and was handed out before. -/
def TimerInv (s : State) : Prop :=
  s.live = s.timer.toList ∧ ∀ id, s.timer = some id → id ≠ 0 ∧ id ≤ s.created

/-- The index is a page. -/
def IndexInv (c : Config) (s : State) : Prop :=
  0 ≤ s.index ∧ s.index ≤ c.pages - 1

/-- Events whose handlers contain no call of `goTo`: pointer-down and
pointer-move, hover and focus enter and leave, and a key other than the two
arrows. -/
def Event.isPassive : Event → Bool
  | .pointerDown _ => true
  | .pointerMove _ _ => true
  | .mouseEnter => true
  | .mouseLeave => true
  | .focusIn => true
  | .focusOut => true
  | .keyDown k => decide (k = Key.other)
  | _ => false

/-- A drag session: pointer-down on `s0`, the events `mid`, then pointer-up
in a container of width `w`. -/
def dragSession (c : Config) (s0 : State) (d : PointerEv) (mid : List Event)
    (u : PointerEv) (w : Nat) : State :=
  step c (run c (step c s0 (Event.pointerDown d)) mid) (Event.pointerUp u w)

/-- A pointer event (no touch lists) at `x`. -/
def pointerAt (x : ℚ) : PointerEv :=
  { clientX := some x, touches := none, changedTouches := none }

/-- A sample configuration: four pages of one slide, looping, with the given
autoplay interval. -/
def sampleConfig (ms : Int) : Config :=
  { perView := 1, autoplayMs := ms, loop := true, pages := 4 }

/-- A sample idle state on page `i` without a timer. -/
def idleAt (i : Int) : State :=
  { index := i, timer := none, isPointerDown := false, startX := 0, scrollStart := 0,
    transform := -100 * (i : ℚ), transitionNone := false, dragging := false, live := [],
    created := 0 }

/-! ## Theorems -/

/-! ### Double rounding -/

theorem roundHalfEven_of_close (x : ℚ) (n : Int) (h : |x - (n : ℚ)| < 1 / 2) :
    roundHalfEven x = n := by
  obtain ⟨h1, h2⟩ := abs_lt.mp h
  unfold roundHalfEven
  by_cases hx : (n : ℚ) ≤ x
  · have hf : Int.floor x = n := by
      rw [Int.floor_eq_iff]
      constructor
      · exact hx
      · linarith
    rw [hf, if_pos (by linarith)]
  · push_neg at hx
    have hf : Int.floor x = n - 1 := by
      rw [Int.floor_eq_iff]
      push_cast
      constructor
      · linarith
      · linarith
    rw [hf]
    push_cast
    rw [if_neg (by linarith), if_pos (by linarith)]
    ring

theorem roundHalfEven_intCast (n : Int) : roundHalfEven (n : ℚ) = n :=
  roundHalfEven_of_close _ n (by simp)

theorem roundHalfEven_nonneg (x : ℚ) (h : 0 ≤ x) : 0 ≤ roundHalfEven x := by
  have hf : 0 ≤ Int.floor x := Int.floor_nonneg.mpr h
  unfold roundHalfEven
  split
  · exact hf
  · split
    · omega
    · split <;> omega

theorem roundDouble_nonneg (q : ℚ) (h : 0 ≤ q) : 0 ≤ roundDouble q := by
  unfold roundDouble
  split
  · exact le_refl _
  · have hp : (0 : ℚ) < 2 ^ ulpExponent q := zpow_pos (by norm_num) _
    have hr := roundHalfEven_nonneg (q / 2 ^ ulpExponent q) (div_nonneg h hp.le)
    have : (0 : ℚ) ≤ (roundHalfEven (q / 2 ^ ulpExponent q) : ℚ) := by exact_mod_cast hr
    exact mul_nonneg this hp.le

theorem ulpExponent_of_binade (q : ℚ) (p : Int) (hp : -1074 ≤ p)
    (hlo : (2 : ℚ) ^ (p + 52) ≤ |q|) (hhi : |q| < (2 : ℚ) ^ (p + 53)) :
    ulpExponent q = p := by
  have hpos : (0 : ℚ) < |q| := lt_of_lt_of_le (zpow_pos (by norm_num) _) hlo
  have h1 : p + 52 ≤ Int.log 2 |q| := by
    rw [← Int.zpow_le_iff_le_log (by norm_num) hpos]
    exact_mod_cast hlo
  have h2 : Int.log 2 |q| < p + 53 := by
    rw [← Int.lt_zpow_iff_log_lt (by norm_num) hpos]
    exact_mod_cast hhi
  unfold ulpExponent
  have : Int.log 2 |q| = p + 52 := by omega
  rw [this]
  omega

/-- The value of `roundDouble q` from a mantissa `n` and an exponent `p` of the
binade of `q`. -/
theorem roundDouble_of_close (q : ℚ) (n p : Int) (hp : -1074 ≤ p)
    (hlo : (2 : ℚ) ^ (p + 52) ≤ |q|) (hhi : |q| < (2 : ℚ) ^ (p + 53))
    (hc : |q / 2 ^ p - (n : ℚ)| < 1 / 2) : roundDouble q = (n : ℚ) * 2 ^ p := by
  have hpos : (0 : ℚ) < |q| := lt_of_lt_of_le (zpow_pos (by norm_num) _) hlo
  have hq : q ≠ 0 := abs_pos.mp hpos
  unfold roundDouble
  rw [if_neg hq, ulpExponent_of_binade q p hp hlo hhi, roundHalfEven_of_close _ n hc]

theorem pointTwelve_eq : pointTwelve = 1080863910568919 / 9007199254740992 := by
  unfold pointTwelve
  rw [roundDouble_of_close (12 / 100) 8646911284551352 (-56) (by norm_num)
    (by norm_num [abs_of_pos]) (by norm_num [abs_of_pos]) (by norm_num [abs_lt])]
  norm_num

theorem pointTwelve_nonneg : 0 ≤ pointTwelve :=
  roundDouble_nonneg _ (by norm_num)

theorem threshold_nonneg (w : Nat) : 0 ≤ jsMul (w : ℚ) pointTwelve :=
  roundDouble_nonneg _ (mul_nonneg (Nat.cast_nonneg w) pointTwelve_nonneg)

/-- An integer below `2 ^ 53` in magnitude is a double. -/
theorem roundDouble_intCast (k : Int) (hk : |k| < 2 ^ 53) : roundDouble (k : ℚ) = k := by
  by_cases h0 : k = 0
  · subst h0
    simp [roundDouble]
  · have hq : (k : ℚ) ≠ 0 := by exact_mod_cast h0
    have hpos : (0 : ℚ) < |(k : ℚ)| := abs_pos.mpr hq
    have hone : (1 : ℚ) ≤ |(k : ℚ)| := by
      have : (1 : Int) ≤ |k| := Int.one_le_abs h0
      exact_mod_cast this
    have hlt : |(k : ℚ)| < (2 : ℚ) ^ (53 : Int) := by
      have : ((|k| : Int) : ℚ) < ((2 ^ 53 : Int) : ℚ) := by exact_mod_cast hk
      rw [Int.cast_abs] at this
      calc |(k : ℚ)| < ((2 ^ 53 : Int) : ℚ) := this
        _ = (2 : ℚ) ^ (53 : Int) := by norm_num
    have h1 : (0 : Int) ≤ Int.log 2 |(k : ℚ)| := by
      rw [← Int.zpow_le_iff_le_log (by norm_num) hpos]
      simpa using hone
    have h2 : Int.log 2 |(k : ℚ)| < 53 := by
      rw [← Int.lt_zpow_iff_log_lt (by norm_num) hpos]
      exact_mod_cast hlt
    have hp0 : ulpExponent (k : ℚ) ≤ 0 := by
      unfold ulpExponent
      omega
    obtain ⟨m, hm⟩ := Int.exists_eq_neg_ofNat hp0
    unfold roundDouble
    rw [if_neg hq, hm, zpow_neg, zpow_natCast, div_inv_eq_mul]
    have hcast : (k : ℚ) * 2 ^ m = ((k * 2 ^ m : Int) : ℚ) := by push_cast; ring
    rw [hcast, roundHalfEven_intCast]
    push_cast
    field_simp

theorem jsSub_intCast (a b : Int) (h : |a - b| < 2 ^ 53) :
    jsSub (a : ℚ) (b : ℚ) = ((a - b : Int) : ℚ) := by
  unfold jsSub
  rw [← Int.cast_sub, roundDouble_intCast _ h]

theorem threshold_300 : jsMul ((300 : Nat) : ℚ) pointTwelve = 36 := by
  unfold jsMul
  rw [pointTwelve_eq,
    roundDouble_of_close _ (36 * 2 ^ 47) (-47) (by norm_num)
      (by norm_num [abs_of_pos]) (by norm_num [abs_of_pos]) (by norm_num [abs_lt])]
  norm_num

theorem threshold_302 :
    jsMul ((302 : Nat) : ℚ) pointTwelve = 5100326577997087 / 140737488355328 := by
  unfold jsMul
  rw [pointTwelve_eq,
    roundDouble_of_close _ 5100326577997087 (-47) (by norm_num)
      (by norm_num [abs_of_pos]) (by norm_num [abs_of_pos]) (by norm_num [abs_lt])]
  norm_num

theorem roundDouble_36_24 :
    roundDouble (5100326577997087 / 140737488355328) =
      5100326577997087 / 140737488355328 := by
  rw [roundDouble_of_close _ 5100326577997087 (-47) (by norm_num)
      (by norm_num [abs_of_pos]) (by norm_num [abs_of_pos]) (by norm_num [abs_lt])]
  norm_num

theorem roundDouble_0_8 :
    roundDouble (8 / 10) = 3602879701896397 / 4503599627370496 := by
  rw [roundDouble_of_close _ 7205759403792794 (-53) (by norm_num)
      (by norm_num [abs_of_pos]) (by norm_num [abs_of_pos]) (by norm_num [abs_lt])]
  norm_num

theorem threshold_360 :
    jsMul ((360 : Nat) : ℚ) pointTwelve = 6079859496950169 / 140737488355328 := by
  unfold jsMul
  rw [pointTwelve_eq,
    roundDouble_of_close _ 6079859496950169 (-47) (by norm_num)
      (by norm_num [abs_of_pos]) (by norm_num [abs_of_pos]) (by norm_num [abs_lt])]
  norm_num

theorem jsSub_44_0_8 :
    jsSub 44 (3602879701896397 / 4503599627370496) =
      3039929748475085 / 70368744177664 := by
  unfold jsSub
  rw [roundDouble_of_close _ 6079859496950170 (-47) (by norm_num)
      (by norm_num [abs_of_pos]) (by norm_num [abs_of_pos]) (by norm_num [abs_lt])]
  norm_num


/-! ### Field lemmas of the timer functions -/

theorem stop_index (s : State) : (stop s).index = s.index := by
  unfold stop; split <;> rfl

theorem stop_isPointerDown (s : State) : (stop s).isPointerDown = s.isPointerDown := by
  unfold stop; split <;> rfl

theorem stop_scrollStart (s : State) : (stop s).scrollStart = s.scrollStart := by
  unfold stop; split <;> rfl

theorem stop_startX (s : State) : (stop s).startX = s.startX := by
  unfold stop; split <;> rfl

theorem stop_created (s : State) : (stop s).created = s.created := by
  unfold stop; split <;> rfl

theorem start_index (c : Config) (s : State) : (start c s).index = s.index := by
  unfold start; split
  · rfl
  · exact stop_index s

theorem start_isPointerDown (c : Config) (s : State) :
    (start c s).isPointerDown = s.isPointerDown := by
  unfold start; split
  · rfl
  · exact stop_isPointerDown s

theorem start_scrollStart (c : Config) (s : State) :
    (start c s).scrollStart = s.scrollStart := by
  unfold start; split
  · rfl
  · exact stop_scrollStart s

theorem start_startX (c : Config) (s : State) : (start c s).startX = s.startX := by
  unfold start; split
  · rfl
  · exact stop_startX s

theorem restart_index (c : Config) (s : State) : (restart c s).index = s.index := by
  unfold restart; rw [start_index, stop_index]

theorem restart_isPointerDown (c : Config) (s : State) :
    (restart c s).isPointerDown = s.isPointerDown := by
  unfold restart; rw [start_isPointerDown, stop_isPointerDown]

theorem restart_scrollStart (c : Config) (s : State) :
    (restart c s).scrollStart = s.scrollStart := by
  unfold restart; rw [start_scrollStart, stop_scrollStart]

theorem restart_startX (c : Config) (s : State) : (restart c s).startX = s.startX := by
  unfold restart; rw [start_startX, stop_startX]

theorem goTo_index (c : Config) (s : State) (i : Int) (user : Bool) :
    (goTo c s i user).index = clamp c i := by
  unfold goTo
  cases user
  · rfl
  · simp only [if_true]; rw [restart_index]

theorem goTo_isPointerDown (c : Config) (s : State) (i : Int) (user : Bool) :
    (goTo c s i user).isPointerDown = s.isPointerDown := by
  unfold goTo
  cases user
  · rfl
  · simp only [if_true]; rw [restart_isPointerDown]

theorem goTo_scrollStart (c : Config) (s : State) (i : Int) (user : Bool) :
    (goTo c s i user).scrollStart = s.scrollStart := by
  unfold goTo
  cases user
  · rfl
  · simp only [if_true]; rw [restart_scrollStart]

theorem goTo_startX (c : Config) (s : State) (i : Int) (user : Bool) :
    (goTo c s i user).startX = s.startX := by
  unfold goTo
  cases user
  · rfl
  · simp only [if_true]; rw [restart_startX]

/-! ### `clamp` -/

theorem clamp_range (c : Config) (i : Int) (hp : 1 ≤ c.pages) :
    0 ≤ clamp c i ∧ clamp c i ≤ c.pages - 1 := by
  unfold clamp
  split
  · split
    · omega
    · split <;> omega
  · omega

theorem clamp_of_mem (c : Config) (i : Int) (h0 : 0 ≤ i) (h1 : i ≤ c.pages - 1) :
    clamp c i = i := by
  unfold clamp
  split
  · split
    · omega
    · split <;> omega
  · omega

theorem clamp_loop (c : Config) (i : Int) (hl : c.loop = true) :
    clamp c i = if i < 0 then c.pages - 1 else if i ≥ c.pages then 0 else i := by
  unfold clamp
  rw [if_pos hl]

theorem clamp_noloop (c : Config) (i : Int) (hl : c.loop = false) :
    clamp c i = max 0 (min (c.pages - 1) i) := by
  unfold clamp
  simp [hl]

theorem clamp_loop_emod (c : Config) (i : Int) (hl : c.loop = true) (hp : 1 ≤ c.pages)
    (h0 : -1 ≤ i) (h1 : i ≤ c.pages) : clamp c i = i % c.pages := by
  rw [clamp_loop c i hl]
  by_cases hneg : i < 0
  · rw [if_pos hneg]
    have hi : i = -1 := by omega
    subst hi
    have e : (-1 : Int) = (c.pages - 1) + (-1) * c.pages := by ring
    rw [e, Int.add_mul_emod_self]
    exact (Int.emod_eq_of_lt (by omega) (by omega)).symm
  · rw [if_neg hneg]
    by_cases hge : i ≥ c.pages
    · rw [if_pos hge]
      have hi : i = c.pages := by omega
      rw [hi, Int.emod_self]
    · rw [if_neg hge]
      exact (Int.emod_eq_of_lt (by omega) (by omega)).symm

/-- C1: for every integer target, every page count of at least one and either
loop setting, the index after `goTo` lies in `[0, pages - 1]`. -/
theorem goTo_index_in_range (c : Config) (s : State) (i : Int) (user : Bool)
    (hp : 1 ≤ c.pages) :
    0 ≤ (goTo c s i user).index ∧ (goTo c s i user).index ≤ c.pages - 1 := by
  rw [goTo_index]
  exact clamp_range c i hp

theorem goTo_index_in_range_witness :
    (1 : Int) ≤ (sampleConfig 0).pages ∧
      (0 ≤ (goTo (sampleConfig 0) (idleAt 0) 7 true).index ∧
        (goTo (sampleConfig 0) (idleAt 0) 7 true).index ≤ (sampleConfig 0).pages - 1) :=
  ⟨by decide, goTo_index_in_range (sampleConfig 0) (idleAt 0) 7 true (by decide)⟩

/-- C2 as stated fails: with looping and four pages, `goTo(5)` gives index `0`
while `5` modulo `4` is `1`, and `goTo(-2)` gives `3` while `-2` modulo `4`
is `2`. -/
theorem goTo_loop_not_modulo :
    (sampleConfig 0).loop = true ∧ (1 : Int) ≤ (sampleConfig 0).pages ∧
      (goTo (sampleConfig 0) (idleAt 0) 5 false).index = 0 ∧
      (5 : Int) % (sampleConfig 0).pages = 1 ∧
      (goTo (sampleConfig 0) (idleAt 0) (-2) false).index = 3 ∧
      (-2 : Int) % (sampleConfig 0).pages = 2 ∧
      ¬ (∀ (c : Config) (s : State) (i : Int) (user : Bool), c.loop = true → 1 ≤ c.pages →
          (goTo c s i user).index = i % c.pages) := by
  refine ⟨by decide, by decide, by decide, by decide, by decide, by decide, ?_⟩
  intro h
  have h5 := h (sampleConfig 0) (idleAt 0) 5 false (by decide) (by decide)
  revert h5
  decide

/-- C2 amended: with looping, `goTo(i)` gives `pages - 1` for every `i < 0`,
`0` for every `i ≥ pages` and `i` otherwise; for `-1 ≤ i ≤ pages` (one step
beyond either end, which covers `next`, `prev` and the dots) this is the
non-negative remainder of `i` modulo `pages`. -/
theorem goTo_loop_index (c : Config) (s : State) (i : Int) (user : Bool)
    (hl : c.loop = true) (hp : 1 ≤ c.pages) :
    (i < 0 → (goTo c s i user).index = c.pages - 1) ∧
      (c.pages ≤ i → (goTo c s i user).index = 0) ∧
      (0 ≤ i → i < c.pages → (goTo c s i user).index = i) ∧
      (-1 ≤ i → i ≤ c.pages → (goTo c s i user).index = i % c.pages) := by
  rw [goTo_index]
  refine ⟨?_, ?_, ?_, ?_⟩
  · intro h; rw [clamp_loop c i hl, if_pos h]
  · intro h; rw [clamp_loop c i hl, if_neg (by omega), if_pos (by omega)]
  · intro h0 h1; rw [clamp_loop c i hl, if_neg (by omega), if_neg (by omega)]
  · intro h0 h1; exact clamp_loop_emod c i hl hp h0 h1

theorem goTo_loop_index_witness :
    (sampleConfig 0).loop = true ∧ (1 : Int) ≤ (sampleConfig 0).pages ∧
      (goTo (sampleConfig 0) (idleAt 0) (-1) false).index = 3 ∧
      (goTo (sampleConfig 0) (idleAt 0) 4 false).index = 0 ∧
      (goTo (sampleConfig 0) (idleAt 0) 4 false).index = 4 % (sampleConfig 0).pages := by
  refine ⟨by decide, by decide, ?_, ?_, ?_⟩
  · exact (goTo_loop_index (sampleConfig 0) (idleAt 0) (-1) false (by decide)
      (by decide)).1 (by decide)
  · exact (goTo_loop_index (sampleConfig 0) (idleAt 0) 4 false (by decide)
      (by decide)).2.1 (by decide)
  · exact (goTo_loop_index (sampleConfig 0) (idleAt 0) 4 false (by decide)
      (by decide)).2.2.2 (by decide) (by decide)

/-- C3: without looping, `goTo(i)` gives `max 0 (min (pages - 1) i)`: `0` for
every `i < 0`, `pages - 1` for every `i ≥ pages` and `i` otherwise. -/
theorem goTo_noloop_index (c : Config) (s : State) (i : Int) (user : Bool)
    (hl : c.loop = false) (hp : 1 ≤ c.pages) :
    (goTo c s i user).index = max 0 (min (c.pages - 1) i) ∧
      (i < 0 → (goTo c s i user).index = 0) ∧
      (c.pages ≤ i → (goTo c s i user).index = c.pages - 1) ∧
      (0 ≤ i → i < c.pages → (goTo c s i user).index = i) := by
  rw [goTo_index, clamp_noloop c i hl]
  refine ⟨rfl, ?_, ?_, ?_⟩
  · intro h; omega
  · intro h; omega
  · intro h0 h1; omega

theorem goTo_noloop_index_witness :
    ({ sampleConfig 0 with loop := false } : Config).loop = false ∧
      (1 : Int) ≤ ({ sampleConfig 0 with loop := false } : Config).pages ∧
      (goTo { sampleConfig 0 with loop := false } (idleAt 0) (-1) false).index = 0 ∧
      (goTo { sampleConfig 0 with loop := false } (idleAt 0) 5 false).index = 3 := by
  refine ⟨by decide, by decide, ?_, ?_⟩
  · exact (goTo_noloop_index { sampleConfig 0 with loop := false } (idleAt 0) (-1) false
      (by decide) (by decide)).2.1 (by decide)
  · exact (goTo_noloop_index { sampleConfig 0 with loop := false } (idleAt 0) 5 false
      (by decide) (by decide)).2.2.1 (by decide)

/-! ### Page count -/

theorem ceil_div_eq (n : Nat) (p : Int) (hp : 1 ≤ p) :
    Int.ceil ((n : ℚ) / (p : ℚ)) = ((n : Int) + p - 1) / p := by
  have hp0 : (0 : ℚ) < (p : ℚ) := by exact_mod_cast (by omega : (0 : Int) < p)
  have hpz : (0 : Int) < p := by omega
  have h1 : ((n : Int) + p - 1) / p * p ≤ (n : Int) + p - 1 := Int.ediv_mul_le _ (by omega)
  have h2 : (n : Int) + p - 1 < (((n : Int) + p - 1) / p + 1) * p :=
    Int.lt_ediv_add_one_mul_self _ hpz
  rw [Int.ceil_eq_iff]
  constructor
  · rw [lt_div_iff₀ hp0]
    have : (((n : Int) + p - 1) / p - 1) * p < (n : Int) := by nlinarith
    exact_mod_cast this
  · rw [div_le_iff₀ hp0]
    have : (n : Int) ≤ ((n : Int) + p - 1) / p * p := by nlinarith
    exact_mod_cast this

theorem pages_eq_div (slides : Nat) (pv : Int) (hp : 1 ≤ pv) :
    pages slides pv = max 1 (((slides : Int) + pv - 1) / pv) := by
  unfold pages
  rw [ceil_div_eq slides pv hp]

/-- C4: for every `perView ≥ 1` and every number of slides, the page count of
line 36 is `max 1 ⌈slides / perView⌉`, in integer arithmetic
`max 1 ((slides + perView - 1) / perView)`; it is at least `1`, the pages hold
all slides, and no smaller positive count does. -/
theorem pages_eq_ceil (slides : Nat) (pv : Int) (hp : 1 ≤ pv) :
    pages slides pv = max 1 (Int.ceil ((slides : ℚ) / (pv : ℚ))) ∧
      pages slides pv = max 1 (((slides : Int) + pv - 1) / pv) ∧
      1 ≤ pages slides pv ∧
      (slides : Int) ≤ pages slides pv * pv ∧
      ∀ k : Int, 1 ≤ k → (slides : Int) ≤ k * pv → pages slides pv ≤ k := by
  have hpz : (0 : Int) < pv := by omega
  have hdef := pages_eq_div slides pv hp
  have h2 : (slides : Int) + pv - 1 < (((slides : Int) + pv - 1) / pv + 1) * pv :=
    Int.lt_ediv_add_one_mul_self _ hpz
  have h1 : ((slides : Int) + pv - 1) / pv * pv ≤ (slides : Int) + pv - 1 :=
    Int.ediv_mul_le _ (by omega)
  refine ⟨rfl, hdef, ?_, ?_, ?_⟩
  · rw [hdef]; exact le_max_left _ _
  · rw [hdef]
    have hq : ((slides : Int) + pv - 1) / pv ≤ max 1 (((slides : Int) + pv - 1) / pv) :=
      le_max_right _ _
    nlinarith
  · intro k hk hs
    rw [hdef]
    apply max_le hk
    by_contra hlt
    push_neg at hlt
    have : (k + 1) * pv ≤ ((slides : Int) + pv - 1) / pv * pv :=
      Int.mul_le_mul_of_nonneg_right (by omega) (by omega)
    nlinarith

theorem pages_eq_ceil_witness :
    (1 : Int) ≤ 3 ∧ pages 7 3 = 3 ∧ pages 6 3 = 2 := by
  refine ⟨by decide, ?_, ?_⟩
  · exact (pages_eq_ceil 7 3 (by decide)).2.1
  · exact (pages_eq_ceil 6 3 (by decide)).2.1

/-! ### Timer discipline -/

theorem stop_timerInv (s : State) (h : TimerInv s) :
    (stop s).timer = none ∧ (stop s).live = [] := by
  obtain ⟨hl, hid⟩ := h
  unfold stop
  split
  · rename_i id heq
    rw [heq] at hl
    simp [hl]
  · rename_i hne
    cases ht : s.timer with
    | none => rw [ht] at hl; exact ⟨rfl, by simpa using hl⟩
    | some id =>
      cases id with
      | zero => exact absurd rfl (hid 0 ht).1
      | succ n => exact absurd ht (hne n)

theorem timerInv_stop (s : State) (h : TimerInv s) : TimerInv (stop s) := by
  obtain ⟨ht, hl⟩ := stop_timerInv s h
  refine ⟨by rw [ht, hl]; rfl, ?_⟩
  intro id hid
  rw [ht] at hid
  cases hid

theorem start_timerInv (c : Config) (s : State) (h : TimerInv s) (hms : c.autoplayMs ≠ 0) :
    (start c s).timer = some (s.created + 1) ∧ (start c s).live = [s.created + 1] ∧
      (start c s).created = s.created + 1 := by
  obtain ⟨ht, hl⟩ := stop_timerInv s h
  unfold start
  rw [if_neg hms]
  simp [hl, stop_created]

theorem timerInv_start (c : Config) (s : State) (h : TimerInv s) : TimerInv (start c s) := by
  by_cases hms : c.autoplayMs = 0
  · unfold start; rw [if_pos hms]; exact h
  · obtain ⟨ht, hl, hc⟩ := start_timerInv c s h hms
    refine ⟨by rw [ht, hl]; rfl, ?_⟩
    intro id hid
    rw [ht] at hid
    cases hid
    rw [hc]
    exact ⟨by omega, le_refl _⟩

theorem timerInv_restart (c : Config) (s : State) (h : TimerInv s) :
    TimerInv (restart c s) :=
  timerInv_start c _ (timerInv_stop s h)

theorem timerInv_congr (s t : State) (h : TimerInv s) (h1 : t.timer = s.timer)
    (h2 : t.live = s.live) (h3 : t.created = s.created) : TimerInv t := by
  unfold TimerInv at *
  rw [h1, h2, h3]
  exact h

theorem timerInv_goTo (c : Config) (s : State) (i : Int) (user : Bool) (h : TimerInv s) :
    TimerInv (goTo c s i user) := by
  unfold goTo
  cases user
  · exact timerInv_congr s _ h rfl rfl rfl
  · simp only [if_true]
    exact timerInv_restart c _ (timerInv_congr s _ h rfl rfl rfl)

theorem timerInv_onPointerDown (s : State) (e : PointerEv) (h : TimerInv s) :
    TimerInv (onPointerDown s e) := by
  unfold onPointerDown
  exact timerInv_stop _ (timerInv_congr s _ h rfl rfl rfl)

theorem timerInv_onPointerMove (c : Config) (s : State) (e : PointerEv) (w : Nat)
    (h : TimerInv s) : TimerInv (onPointerMove c s e w) := by
  unfold onPointerMove
  split
  · exact h
  · exact timerInv_congr s _ h rfl rfl rfl

theorem timerInv_commit (c : Config) (s : State) (p q : Prop) [Decidable p] [Decidable q]
    (h : TimerInv s) :
    TimerInv (if p then prev c s else if q then next c s else goTo c s s.index false) := by
  split
  · exact timerInv_goTo c _ _ _ h
  · split
    · exact timerInv_goTo c _ _ _ h
    · exact timerInv_goTo c _ _ _ h

theorem timerInv_onPointerUp (c : Config) (s : State) (e : PointerEv) (w : Nat)
    (h : TimerInv s) : TimerInv (onPointerUp c s e w) := by
  unfold onPointerUp
  split
  · exact h
  · apply timerInv_start
    exact timerInv_commit c _ _ _ (timerInv_congr s _ h rfl rfl rfl)

theorem timerInv_onKeyDown (c : Config) (s : State) (k : Key) (h : TimerInv s) :
    TimerInv (onKeyDown c s k) := by
  unfold onKeyDown
  have h1 : TimerInv (if k = Key.arrowLeft then restart c (prev c s) else s) := by
    split
    · exact timerInv_restart c _ (timerInv_goTo c _ _ _ h)
    · exact h
  simp only
  split
  · exact timerInv_restart c _ (timerInv_goTo c _ _ _ h1)
  · exact h1

theorem timerInv_step (c : Config) (s : State) (e : Event) (h : TimerInv s) :
    TimerInv (step c s e) := by
  cases e with
  | dotClick i =>
    simp only [step]
    split
    · exact timerInv_goTo c _ _ _ h
    · exact h
  | prevClick => exact timerInv_goTo c _ _ _ h
  | nextClick => exact timerInv_goTo c _ _ _ h
  | keyDown k => exact timerInv_onKeyDown c s k h
  | mouseEnter => exact timerInv_stop s h
  | mouseLeave => exact timerInv_start c s h
  | focusIn => exact timerInv_stop s h
  | focusOut => exact timerInv_start c s h
  | pointerDown e => exact timerInv_onPointerDown s e h
  | pointerMove e w => exact timerInv_onPointerMove c s e w h
  | pointerUp e w => exact timerInv_onPointerUp c s e w h
  | tick id =>
    simp only [step]
    split
    · exact timerInv_goTo c _ _ _ h
    · exact h

theorem timerInv_init (c : Config) : TimerInv (init c) := by
  unfold init
  apply timerInv_start
  apply timerInv_goTo
  exact ⟨rfl, fun id hid => by cases hid⟩

theorem timerInv_run (c : Config) (es : List Event) :
    ∀ s : State, TimerInv s → TimerInv (run c s es) := by
  induction es with
  | nil => intro s h; exact h
  | cons e es ih => intro s h; exact ih (step c s e) (timerInv_step c s e h)

theorem timerInv_act (c : Config) (s : State) (a : Action) (h : TimerInv s) :
    TimerInv (act c s a) := by
  cases a with
  | event e => exact timerInv_step c s e h
  | callStart => exact timerInv_start c s h
  | callStop => exact timerInv_stop s h
  | callRestart => exact timerInv_restart c s h

theorem timerInv_runActions (c : Config) (acts : List Action) :
    ∀ s : State, TimerInv s → TimerInv (runActions c s acts) := by
  induction acts with
  | nil => intro s h; exact h
  | cons a acts ih => intro s h; exact ih (act c s a) (timerInv_act c s a h)

/-- C6: in every state reached from initialisation by any sequence of events
(clicks, keys, hover and focus enter and leave, pointer down, move and up, timer
ticks) and calls of `start`, `stop` and `restart`, at most one interval is
live, a live interval is the one stored in `timer`, and a stored interval is
live. -/
theorem at_most_one_live_timer (c : Config) (acts : List Action) :
    (runActions c (init c) acts).live.length ≤ 1 ∧
      (∀ id, id ∈ (runActions c (init c) acts).live →
        (runActions c (init c) acts).timer = some id) ∧
      (∀ id, (runActions c (init c) acts).timer = some id →
        (runActions c (init c) acts).live = [id]) := by
  obtain ⟨hl, _⟩ := timerInv_runActions c acts (init c) (timerInv_init c)
  rw [hl]
  cases (runActions c (init c) acts).timer with
  | none => simp
  | some t => simp

/-- C7 as stated fails: after initialisation with an interval of 1000 ms the
interval `1` is live and stored; `start()` clears it and schedules the new
interval `2`. -/
theorem start_running_not_noop :
    (sampleConfig 1000).autoplayMs ≠ 0 ∧
      (init (sampleConfig 1000)).timer = some 1 ∧
      (init (sampleConfig 1000)).live = [1] ∧
      (start (sampleConfig 1000) (init (sampleConfig 1000))).timer = some 2 ∧
      (start (sampleConfig 1000) (init (sampleConfig 1000))).live = [2] ∧
      start (sampleConfig 1000) (init (sampleConfig 1000)) ≠ init (sampleConfig 1000) := by
  refine ⟨by decide, by decide, by decide, by decide, by decide, ?_⟩
  intro h
  have ht := congrArg State.timer h
  revert ht
  decide

/-- C7 amended: with a non-zero interval and a running timer, `start()` clears
the running interval and schedules a fresh one, which becomes the only live
interval and the stored one; the index and the drag variables
(`isPointerDown`, `startX`, `scrollStart`) are not touched. -/
theorem start_replaces_running_timer (c : Config) (s : State) (id : Nat)
    (hms : c.autoplayMs ≠ 0) (hinv : TimerInv s) (ht : s.timer = some id) :
    (start c s).timer = some (s.created + 1) ∧
      (start c s).live = [s.created + 1] ∧
      s.created + 1 ≠ id ∧
      id ∉ (start c s).live ∧
      (start c s).index = s.index ∧
      (start c s).isPointerDown = s.isPointerDown ∧
      (start c s).startX = s.startX ∧
      (start c s).scrollStart = s.scrollStart := by
  obtain ⟨h1, h2, _⟩ := start_timerInv c s hinv hms
  have hle := (hinv.2 id ht).2
  refine ⟨h1, h2, by omega, ?_, start_index c s, start_isPointerDown c s,
    start_startX c s, start_scrollStart c s⟩
  rw [h2]
  simp
  omega

theorem start_replaces_running_timer_witness :
    (sampleConfig 1000).autoplayMs ≠ 0 ∧ TimerInv (init (sampleConfig 1000)) ∧
      (init (sampleConfig 1000)).timer = some 1 ∧
      (start (sampleConfig 1000) (init (sampleConfig 1000))).timer
        = some ((init (sampleConfig 1000)).created + 1) ∧
      1 ∉ (start (sampleConfig 1000) (init (sampleConfig 1000))).live :=
  ⟨by decide, timerInv_init _, by decide,
    (start_replaces_running_timer (sampleConfig 1000) (init (sampleConfig 1000)) 1
      (by decide) (timerInv_init _) (by decide)).1,
    (start_replaces_running_timer (sampleConfig 1000) (init (sampleConfig 1000)) 1
      (by decide) (timerInv_init _) (by decide)).2.2.2.1⟩

/-! ### Configuration -/

theorem doubleLimit_eq : doubleLimit = 2 ^ 1024 := by
  unfold doubleLimit
  norm_num

theorem perView_int_ge_one (attr : Option String) (n : Int)
    (h : perView attr = JSNumber.int n) : 1 ≤ n := by
  unfold perView mathMax1 at h
  split at h
  · cases h
  · cases h
  · cases h
    exact le_refl _
  · cases h
    exact le_max_left _ _

theorem initSlider_ready (r : Root) (c : Config) (s : State)
    (h : initSlider r = InitResult.ready c s) :
    r.hasTrack = true ∧ 0 < r.slides ∧ 1 ≤ c.perView ∧ c.pages = pages r.slides c.perView ∧
      1 ≤ c.pages ∧ s = init c := by
  unfold initSlider at h
  split at h
  · cases h
  · rename_i hcond
    simp only [Bool.or_eq_true, Bool.not_eq_true', decide_eq_true_eq, not_or] at hcond
    split at h
    · cases h
    · rename_i pv ms hpv hms
      simp only [InitResult.ready.injEq] at h
      obtain ⟨hc, hs⟩ := h
      have h1 := perView_int_ge_one _ _ hpv
      subst hc
      refine ⟨by simpa using hcond.1, Nat.pos_of_ne_zero hcond.2, h1, rfl, ?_, hs.symm⟩
      exact le_max_left _ _
    · cases h

/-- C8 on the code: an absent or empty `data-per-view` gives `perView = 1`, but
the non-numeric value `abc` gives `NaN`, and with it a `NaN` page count, where
line 26 turns the same `NaN` into its default `0`. -/
theorem perView_non_numeric_is_nan :
    perView none = JSNumber.int 1 ∧ perView (some "") = JSNumber.int 1 ∧
      perView (some "abc") = JSNumber.nan ∧
      pagesJS 5 (perView (some "abc")) = JSNumber.nan ∧
      initSlider { hasTrack := true, slides := 5, dataPerView := some "abc",
                   dataAutoplay := none, dataLoop := none } = InitResult.nanInstance ∧
      autoplayMs (some "abc") = JSNumber.int 0 := by
  refine ⟨by decide, by decide, by decide, by decide, by decide, by decide⟩

/-! ### Handlers and the index -/

theorem next_index (c : Config) (s : State) : (next c s).index = clamp c (s.index + 1) :=
  goTo_index c s _ _

theorem prev_index (c : Config) (s : State) : (prev c s).index = clamp c (s.index - 1) :=
  goTo_index c s _ _

theorem onPointerDown_fields (s : State) (e : PointerEv) :
    (onPointerDown s e).index = s.index ∧ (onPointerDown s e).isPointerDown = true ∧
      (onPointerDown s e).scrollStart = s.index ∧ (onPointerDown s e).startX = moveX e := by
  unfold onPointerDown
  rw [stop_index, stop_isPointerDown, stop_scrollStart, stop_startX]
  exact ⟨rfl, rfl, rfl, rfl⟩

theorem onPointerMove_fields (c : Config) (s : State) (e : PointerEv) (w : Nat) :
    (onPointerMove c s e w).index = s.index ∧
      (onPointerMove c s e w).isPointerDown = s.isPointerDown ∧
      (onPointerMove c s e w).scrollStart = s.scrollStart ∧
      (onPointerMove c s e w).startX = s.startX := by
  unfold onPointerMove
  split
  · exact ⟨rfl, rfl, rfl, rfl⟩
  · exact ⟨rfl, rfl, rfl, rfl⟩

theorem commit_index (c : Config) (s : State) (p q : Prop) [Decidable p] [Decidable q] :
    (if p then prev c s else if q then next c s else goTo c s s.index false).index =
      if p then clamp c (s.index - 1) else if q then clamp c (s.index + 1)
      else clamp c s.index := by
  split
  · exact prev_index c s
  · split
    · exact next_index c s
    · exact goTo_index c s _ _

theorem onPointerUp_index (c : Config) (s : State) (e : PointerEv) (w : Nat)
    (hd : s.isPointerDown = true) :
    (onPointerUp c s e w).index =
      if jsSub (upX e) s.startX > jsMul (w : ℚ) pointTwelve then clamp c (s.index - 1)
      else if jsSub (upX e) s.startX < -(jsMul (w : ℚ) pointTwelve) then
        clamp c (s.index + 1)
      else clamp c s.index := by
  unfold onPointerUp
  rw [if_neg (by simp [hd])]
  simp only
  rw [start_index, commit_index]

theorem onPointerUp_idle (c : Config) (s : State) (e : PointerEv) (w : Nat)
    (hd : s.isPointerDown = false) : onPointerUp c s e w = s := by
  unfold onPointerUp
  rw [if_pos (by simp [hd])]

theorem onKeyDown_index (c : Config) (s : State) (k : Key) :
    (onKeyDown c s k).index =
      match k with
      | Key.arrowLeft => clamp c (s.index - 1)
      | Key.arrowRight => clamp c (s.index + 1)
      | Key.other => s.index := by
  cases k with
  | arrowLeft =>
    simp only [onKeyDown, if_true, reduceCtorEq, if_false]
    rw [restart_index, prev_index]
  | arrowRight =>
    simp only [onKeyDown, if_true, reduceCtorEq, if_false]
    rw [restart_index, next_index]
  | other =>
    simp only [onKeyDown, reduceCtorEq, if_false]

theorem indexInv_step (c : Config) (s : State) (e : Event) (hp : 1 ≤ c.pages)
    (h : IndexInv c s) : IndexInv c (step c s e) := by
  unfold IndexInv at *
  cases e with
  | dotClick i =>
    simp only [step]
    split
    · rw [goTo_index]; exact clamp_range c _ hp
    · exact h
  | prevClick => simp only [step]; rw [goTo_index]; exact clamp_range c _ hp
  | nextClick => simp only [step]; rw [goTo_index]; exact clamp_range c _ hp
  | keyDown k =>
    simp only [step]
    rw [onKeyDown_index]
    cases k with
    | arrowLeft => exact clamp_range c _ hp
    | arrowRight => exact clamp_range c _ hp
    | other => exact h
  | mouseEnter => simp only [step]; rw [stop_index]; exact h
  | mouseLeave => simp only [step]; rw [start_index]; exact h
  | focusIn => simp only [step]; rw [stop_index]; exact h
  | focusOut => simp only [step]; rw [start_index]; exact h
  | pointerDown e => simp only [step]; rw [(onPointerDown_fields s e).1]; exact h
  | pointerMove e w => simp only [step]; rw [(onPointerMove_fields c s e w).1]; exact h
  | pointerUp e w =>
    simp only [step]
    cases hd : s.isPointerDown with
    | false => rw [onPointerUp_idle c s e w hd]; exact h
    | true =>
      rw [onPointerUp_index c s e w hd]
      split
      · exact clamp_range c _ hp
      · split
        · exact clamp_range c _ hp
        · exact clamp_range c _ hp
  | tick id =>
    simp only [step]
    split
    · rw [next_index]; exact clamp_range c _ hp
    · exact h

theorem indexInv_init (c : Config) (hp : 1 ≤ c.pages) : IndexInv c (init c) := by
  unfold IndexInv init
  rw [start_index, goTo_index]
  exact clamp_range c _ hp

theorem indexInv_run (c : Config) (hp : 1 ≤ c.pages) (es : List Event) :
    ∀ s : State, IndexInv c s → IndexInv c (run c s es) := by
  induction es with
  | nil => intro s h; exact h
  | cons e es ih => intro s h; exact ih (step c s e) (indexInv_step c s e hp h)

/-! ### Pressing next around the loop -/

theorem nextClick_index_loop (c : Config) (s : State) (hl : c.loop = true) (hp : 1 ≤ c.pages)
    (h : IndexInv c s) :
    (step c s Event.nextClick).index = (s.index + 1) % c.pages := by
  obtain ⟨h0, h1⟩ := h
  simp only [step]
  rw [goTo_index]
  exact clamp_loop_emod c _ hl hp (by omega) (by omega)

theorem run_nextClick_index (c : Config) (hl : c.loop = true) (hp : 1 ≤ c.pages) (k : Nat) :
    ∀ s : State, IndexInv c s →
      (run c s (List.replicate k Event.nextClick)).index = (s.index + (k : Int)) % c.pages := by
  induction k with
  | zero =>
    intro s h
    simp only [List.replicate, run, List.foldl, Nat.cast_zero, add_zero]
    exact (Int.emod_eq_of_lt h.1 (by have := h.2; omega)).symm
  | succ k ih =>
    intro s h
    have hstep := nextClick_index_loop c s hl hp h
    have hrun : run c s (List.replicate (k + 1) Event.nextClick) =
        run c (step c s Event.nextClick) (List.replicate k Event.nextClick) := rfl
    rw [hrun, ih _ (indexInv_step c s _ hp h), hstep, Int.emod_add_emod]
    congr 1
    push_cast
    ring

/-- C9: with looping, from any page, pressing the next button `pages` times
returns to the same page. -/
theorem next_pages_times_returns (c : Config) (s : State) (hl : c.loop = true)
    (hp : 1 ≤ c.pages) (h : IndexInv c s) :
    (run c s (List.replicate c.pages.toNat Event.nextClick)).index = s.index := by
  rw [run_nextClick_index c hl hp _ s h, Int.toNat_of_nonneg (by omega), Int.add_emod_self]
  exact Int.emod_eq_of_lt h.1 (by have := h.2; omega)

theorem next_pages_times_returns_witness :
    pages 6 3 = 2 ∧
      (run { perView := 3, autoplayMs := 0, loop := true, pages := 2 } (idleAt 0)
        [Event.nextClick, Event.nextClick]).index = 0 :=
  ⟨pages_eq_div 6 3 (by decide),
    next_pages_times_returns { perView := 3, autoplayMs := 0, loop := true, pages := 2 }
      (idleAt 0) rfl (by decide) (by unfold IndexInv; decide)⟩

/-! ### Drag sessions -/

theorem step_passive (c : Config) (s : State) (e : Event) (hp : e.isPassive = true) :
    (step c s e).index = s.index ∧
      (s.isPointerDown = true → (step c s e).isPointerDown = true) ∧
      (s.scrollStart = s.index → (step c s e).scrollStart = s.index) := by
  cases e with
  | dotClick i => cases hp
  | prevClick => cases hp
  | nextClick => cases hp
  | tick id => cases hp
  | pointerUp e w => cases hp
  | keyDown k =>
    cases k with
    | arrowLeft => simp [Event.isPassive] at hp
    | arrowRight => simp [Event.isPassive] at hp
    | other =>
      simp [step, onKeyDown]
  | mouseEnter =>
    simp only [step]
    rw [stop_index, stop_isPointerDown, stop_scrollStart]
    exact ⟨rfl, id, id⟩
  | focusIn =>
    simp only [step]
    rw [stop_index, stop_isPointerDown, stop_scrollStart]
    exact ⟨rfl, id, id⟩
  | mouseLeave =>
    simp only [step]
    rw [start_index, start_isPointerDown, start_scrollStart]
    exact ⟨rfl, id, id⟩
  | focusOut =>
    simp only [step]
    rw [start_index, start_isPointerDown, start_scrollStart]
    exact ⟨rfl, id, id⟩
  | pointerDown e =>
    simp only [step]
    obtain ⟨h1, h2, h3, _⟩ := onPointerDown_fields s e
    exact ⟨h1, fun _ => h2, fun _ => h3⟩
  | pointerMove e w =>
    simp only [step]
    obtain ⟨h1, h2, h3, _⟩ := onPointerMove_fields c s e w
    rw [h1, h2, h3]
    exact ⟨rfl, id, id⟩

theorem run_passive (c : Config) (es : List Event) :
    ∀ s : State, (∀ e ∈ es, e.isPassive = true) → s.isPointerDown = true →
      s.scrollStart = s.index →
      (run c s es).index = s.index ∧ (run c s es).isPointerDown = true ∧
        (run c s es).scrollStart = s.index := by
  induction es with
  | nil => intro s _ hd hs; exact ⟨rfl, hd, hs⟩
  | cons e es ih =>
    intro s hp hd hs
    obtain ⟨h1, h2, h3⟩ := step_passive c s e (hp e (List.mem_cons_self _ _))
    have hrun : run c s (e :: es) = run c (step c s e) es := rfl
    have := ih (step c s e) (fun x hx => hp x (List.mem_cons_of_mem _ hx)) (h2 hd)
      (by rw [h3 hs, h1])
    rw [hrun, this.1, this.2.1, this.2.2, h1]
    exact ⟨rfl, rfl, rfl⟩

theorem run_moves_startX (c : Config) (es : List Event) :
    ∀ s : State, (∀ e ∈ es, ∃ m mw, e = Event.pointerMove m mw) →
      (run c s es).startX = s.startX := by
  induction es with
  | nil => intro s _; rfl
  | cons e es ih =>
    intro s hp
    obtain ⟨m, mw, rfl⟩ := hp e (List.mem_cons_self _ _)
    have hrun : run c s (Event.pointerMove m mw :: es) =
        run c (step c s (Event.pointerMove m mw)) es := rfl
    rw [hrun, ih _ (fun x hx => hp x (List.mem_cons_of_mem _ hx))]
    exact (onPointerMove_fields c s m mw).2.2.2

theorem moves_passive (es : List Event) (h : ∀ e ∈ es, ∃ m mw, e = Event.pointerMove m mw) :
    ∀ e ∈ es, e.isPassive = true := by
  intro e he
  obtain ⟨m, mw, rfl⟩ := h e he
  rfl

theorem moveX_pointerAt (x : ℚ) : moveX (pointerAt x) = x := by
  unfold moveX pointerAt
  by_cases h : x = 0
  · simp [h]
  · simp [h]

theorem upX_pointerAt (x : ℚ) : upX (pointerAt x) = x := rfl

theorem dragSession_index (c : Config) (s0 : State) (d u : PointerEv) (moves : List Event)
    (w : Nat) (hmoves : ∀ e ∈ moves, ∃ m mw, e = Event.pointerMove m mw) :
    (dragSession c s0 d moves u w).index =
      if jsSub (upX u) (moveX d) > jsMul (w : ℚ) pointTwelve then clamp c (s0.index - 1)
      else if jsSub (upX u) (moveX d) < -(jsMul (w : ℚ) pointTwelve) then
        clamp c (s0.index + 1)
      else clamp c s0.index := by
  obtain ⟨f1, f2, f3, f4⟩ := onPointerDown_fields s0 d
  have hs1 : step c s0 (Event.pointerDown d) = onPointerDown s0 d := rfl
  obtain ⟨g1, g2, _⟩ := run_passive c moves (step c s0 (Event.pointerDown d))
    (moves_passive moves hmoves) (by rw [hs1]; exact f2) (by rw [hs1, f3, f1])
  have g4 := run_moves_startX c moves (step c s0 (Event.pointerDown d)) hmoves
  rw [hs1] at g1 g2 g4
  unfold dragSession
  rw [hs1]
  show (onPointerUp c _ u w).index = _
  rw [onPointerUp_index c _ u w g2, g1, g4, f1, f4]

theorem dragSession_302 :
    (dragSession (sampleConfig 0) (idleAt 1) (pointerAt 0) []
      (pointerAt (5100326577997087 / 140737488355328)) 302).index = 1 := by
  rw [dragSession_index _ _ _ _ _ _ (by intro e he; cases he), upX_pointerAt,
    moveX_pointerAt]
  unfold jsSub
  rw [sub_zero, roundDouble_36_24, threshold_302, if_neg (lt_irrefl _),
    if_neg (by norm_num)]
  decide

theorem dragSession_360 :
    (dragSession (sampleConfig 0) (idleAt 1)
      (pointerAt (3602879701896397 / 4503599627370496)) [] (pointerAt 44) 360).index = 0 := by
  rw [dragSession_index _ _ _ _ _ _ (by intro e he; cases he), upX_pointerAt,
    moveX_pointerAt, jsSub_44_0_8, threshold_360, if_pos (by norm_num)]
  decide

/-- C5 as stated fails, the comparison being done on doubles (lines 109-110).
In a container of width 302, a drag from `x = 0` to the double nearest to
36.24 has `dx > 0.12 * 302`, yet the index stays `1`: the double `302 * 0.12`
is that same double.  In a container of width 360, a drag from the double
nearest to 0.8 to `x = 44` has `|dx| ≤ 0.12 * 360`, yet the index becomes `0`:
the double `44 - 0.8` exceeds the double `360 * 0.12`. -/
theorem drag_commit_exact_threshold_fails :
    IndexInv (sampleConfig 0) (idleAt 1) ∧
      (5100326577997087 / 140737488355328 : ℚ) > (12 / 100) * ((302 : Nat) : ℚ) ∧
      (dragSession (sampleConfig 0) (idleAt 1) (pointerAt 0) []
        (pointerAt (5100326577997087 / 140737488355328)) 302).index = 1 ∧
      clamp (sampleConfig 0) ((idleAt 1).index - 1) = 0 ∧
      ¬ ((44 : ℚ) - 3602879701896397 / 4503599627370496 > (12 / 100) * ((360 : Nat) : ℚ)) ∧
      ¬ ((44 : ℚ) - 3602879701896397 / 4503599627370496
          < -((12 / 100) * ((360 : Nat) : ℚ))) ∧
      (dragSession (sampleConfig 0) (idleAt 1)
        (pointerAt (3602879701896397 / 4503599627370496)) [] (pointerAt 44) 360).index = 0 ∧
      (idleAt 1).index = 1 ∧
      ¬ (∀ (c : Config) (s0 : State) (d u : PointerEv) (moves : List Event) (w : Nat)
          (originX dx : ℚ), IndexInv c s0 →
          (∀ e ∈ moves, ∃ m mw, e = Event.pointerMove m mw) →
          moveX d = originX → upX u = originX + dx →
          (dx > (12 / 100) * (w : ℚ) →
            (dragSession c s0 d moves u w).index = clamp c (s0.index - 1)) ∧
          (dx < -((12 / 100) * (w : ℚ)) →
            (dragSession c s0 d moves u w).index = clamp c (s0.index + 1)) ∧
          (¬ dx > (12 / 100) * (w : ℚ) → ¬ dx < -((12 / 100) * (w : ℚ)) →
            (dragSession c s0 d moves u w).index = s0.index)) := by
  have hinv : IndexInv (sampleConfig 0) (idleAt 1) := by unfold IndexInv; decide
  refine ⟨hinv, by norm_num, dragSession_302, by decide, by norm_num, by norm_num,
    dragSession_360, rfl, ?_⟩
  intro h
  have h1 := (h (sampleConfig 0) (idleAt 1) (pointerAt 0)
    (pointerAt (5100326577997087 / 140737488355328)) [] 302 0
    (5100326577997087 / 140737488355328) hinv (by intro e he; cases he)
    (moveX_pointerAt 0) (by rw [upX_pointerAt, zero_add])).1 (by norm_num)
  rw [dragSession_302] at h1
  revert h1
  decide

/-- C5 amended: a drag that starts on page `s0.index` and has only pointer-move
events before the pointer-up in a container of width `w` is decided on the
doubles the code computes, `dx = x_up - x_down` and `threshold = w * 0.12`
(each rounded to the nearest double): it ends on `clamp (s0.index - 1)` if
`dx > threshold`, on `clamp (s0.index + 1)` if `dx < -threshold`, and on
`s0.index` otherwise. -/
theorem drag_commit (c : Config) (s0 : State) (d u : PointerEv) (moves : List Event)
    (w : Nat) (hinv : IndexInv c s0)
    (hmoves : ∀ e ∈ moves, ∃ m mw, e = Event.pointerMove m mw) :
    (jsSub (upX u) (moveX d) > jsMul (w : ℚ) pointTwelve →
        (dragSession c s0 d moves u w).index = clamp c (s0.index - 1)) ∧
      (jsSub (upX u) (moveX d) < -(jsMul (w : ℚ) pointTwelve) →
        (dragSession c s0 d moves u w).index = clamp c (s0.index + 1)) ∧
      (¬ jsSub (upX u) (moveX d) > jsMul (w : ℚ) pointTwelve →
        ¬ jsSub (upX u) (moveX d) < -(jsMul (w : ℚ) pointTwelve) →
        (dragSession c s0 d moves u w).index = s0.index) := by
  rw [dragSession_index c s0 d u moves w hmoves]
  refine ⟨fun h => by rw [if_pos h], fun h => ?_, fun h1 h2 => ?_⟩
  · have hw := threshold_nonneg w
    rw [if_neg (by linarith), if_pos h]
  · rw [if_neg h1, if_neg h2]
    exact clamp_of_mem c _ hinv.1 hinv.2

theorem drag_commit_witness :
    IndexInv (sampleConfig 0) (idleAt 1) ∧
      jsMul ((300 : Nat) : ℚ) pointTwelve = 36 ∧
      (dragSession (sampleConfig 0) (idleAt 1) (pointerAt 100)
        [Event.pointerMove (pointerAt 120) 300] (pointerAt 140) 300).index = 0 ∧
      (dragSession (sampleConfig 0) (idleAt 1) (pointerAt 100)
        [Event.pointerMove (pointerAt 80) 300] (pointerAt 60) 300).index = 2 ∧
      (dragSession (sampleConfig 0) (idleAt 1) (pointerAt 100)
        [Event.pointerMove (pointerAt 105) 300] (pointerAt 110) 300).index = 1 := by
  have hinv : IndexInv (sampleConfig 0) (idleAt 1) := by unfold IndexInv; decide
  have hm : ∀ x : ℚ, ∀ e ∈ [Event.pointerMove (pointerAt x) 300],
      ∃ m mw, e = Event.pointerMove m mw := by
    intro x e he
    rw [List.mem_singleton] at he
    exact ⟨_, _, he⟩
  have hdx : ∀ a : Int, |a - 100| < 2 ^ 53 →
      jsSub (upX (pointerAt (a : ℚ))) (moveX (pointerAt ((100 : Int) : ℚ)))
        = ((a - 100 : Int) : ℚ) := by
    intro a ha
    rw [upX_pointerAt, moveX_pointerAt]
    exact jsSub_intCast a 100 ha
  have h140 := hdx 140 (by decide)
  have h60 := hdx 60 (by decide)
  have h110 := hdx 110 (by decide)
  norm_num at h140 h60 h110
  refine ⟨hinv, threshold_300, ?_, ?_, ?_⟩
  · exact (drag_commit (sampleConfig 0) (idleAt 1) (pointerAt 100) (pointerAt 140) _ 300
      hinv (hm 120)).1 (by rw [h140, threshold_300]; norm_num)
  · exact (drag_commit (sampleConfig 0) (idleAt 1) (pointerAt 100) (pointerAt 60) _ 300
      hinv (hm 80)).2.1 (by rw [h60, threshold_300]; norm_num)
  · exact (drag_commit (sampleConfig 0) (idleAt 1) (pointerAt 100) (pointerAt 110) _ 300
      hinv (hm 105)).2.2 (by rw [h110, threshold_300]; norm_num)
      (by rw [h110, threshold_300]; norm_num)

/-- C10 as stated fails: in the Dragging state right after a pointer-down on
page `0`, the right arrow key moves the index to `1`; and once the pointer
leaves the container (`start()`), a tick of the new interval does the same.
The state stays Dragging with `scrollStart = 0`. -/
theorem drag_does_not_own_index :
    (run (sampleConfig 1000) (init (sampleConfig 1000))
        [Event.pointerDown (pointerAt 100)]).isPointerDown = true ∧
      (run (sampleConfig 1000) (init (sampleConfig 1000))
        [Event.pointerDown (pointerAt 100)]).scrollStart = 0 ∧
      (run (sampleConfig 1000) (init (sampleConfig 1000))
        [Event.pointerDown (pointerAt 100)]).index = 0 ∧
      (run (sampleConfig 1000) (init (sampleConfig 1000))
        [Event.pointerDown (pointerAt 100), Event.keyDown Key.arrowRight]).isPointerDown
          = true ∧
      (run (sampleConfig 1000) (init (sampleConfig 1000))
        [Event.pointerDown (pointerAt 100), Event.keyDown Key.arrowRight]).index = 1 ∧
      (run (sampleConfig 1000) (init (sampleConfig 1000))
        [Event.pointerDown (pointerAt 100), Event.mouseLeave]).live = [2] ∧
      (run (sampleConfig 1000) (init (sampleConfig 1000))
        [Event.pointerDown (pointerAt 100), Event.mouseLeave, Event.tick 2]).isPointerDown
          = true ∧
      (run (sampleConfig 1000) (init (sampleConfig 1000))
        [Event.pointerDown (pointerAt 100), Event.mouseLeave, Event.tick 2]).index = 1 := by
  refine ⟨by decide, by decide, by decide, by decide, by decide, by decide, by decide,
    by decide⟩

/-- C10 amended: in every Dragging state reached from the pointer-down through
pointer-move, repeated pointer-down, hover and focus enter and leave and keys
other than the arrows, the index equals the one captured at pointer-down (and
`scrollStart` holds it); nothing is said about arrow keys, button and dot
clicks and timer ticks, whose handlers call `goTo` during a drag as well. -/
theorem drag_passive_keeps_index (c : Config) (s0 : State) (d : PointerEv)
    (es : List Event) (hp : ∀ e ∈ es, e.isPassive = true) :
    (run c (step c s0 (Event.pointerDown d)) es).isPointerDown = true ∧
      (run c (step c s0 (Event.pointerDown d)) es).scrollStart = s0.index ∧
      (run c (step c s0 (Event.pointerDown d)) es).index = s0.index := by
  obtain ⟨f1, f2, f3, _⟩ := onPointerDown_fields s0 d
  have hs1 : step c s0 (Event.pointerDown d) = onPointerDown s0 d := rfl
  obtain ⟨g1, g2, g3⟩ := run_passive c es (step c s0 (Event.pointerDown d)) hp
    (by rw [hs1]; exact f2) (by rw [hs1, f3, f1])
  rw [hs1] at g1 g2 g3
  rw [hs1, g1, g2, g3, f1]
  exact ⟨rfl, rfl, rfl⟩

theorem drag_passive_keeps_index_witness :
    (∀ e ∈ [Event.pointerMove (pointerAt 130) 300, Event.mouseLeave, Event.focusIn,
        Event.keyDown Key.other], e.isPassive = true) ∧
      (run (sampleConfig 1000) (step (sampleConfig 1000) (idleAt 2)
        (Event.pointerDown (pointerAt 100)))
        [Event.pointerMove (pointerAt 130) 300, Event.mouseLeave, Event.focusIn,
          Event.keyDown Key.other]).index = 2 :=
  ⟨by decide,
    (drag_passive_keeps_index (sampleConfig 1000) (idleAt 2) (pointerAt 100)
      [Event.pointerMove (pointerAt 130) 300, Event.mouseLeave, Event.focusIn,
        Event.keyDown Key.other] (by decide)).2.2⟩

end Slider
